import Mathlib

/-!
Verification of the Hangar API client (`pkg/hangar/client.go`, `pkg/hangar/types.go`)
against its natural-language specification.

The client is embedded shallowly:

* Go strings are modelled as Lean `String`; where byte-level behaviour matters
  (URL path escaping) every character is required to have a code point below 256,
  which is exactly the set of Go byte strings under the Latin-1 identification.
* JSON decoding (`encoding/json`) is modelled by a total, fuel-indexed parser
  producing a `Json` tree plus per-type decoders mirroring Go's lenient struct
  decoding (absent or null fields keep the zero value, wrong-type fields fail).
  JSON numbers are modelled as integers and `\u` string escapes are rejected;
  no theorem below exercises either divergence.  `time.Time` fields are carried
  as their raw string (format validation elided; no theorem exercises it).
* The HTTP transport (`http.Client.Do`) is an arbitrary function from requests
  to either a transport error or a response; each operation returns its result
  together with the list of requests it issued.
-/

/-- Json is the tree of JSON values produced by decoding a response body.
Numbers are modelled as integers (the source relies only on integral fields). -/
inductive Json where
  | null : Json
  | bool : Bool → Json
  | num : Int → Json
  | str : String → Json
  | arr : List Json → Json
  | obj : List (String × Json) → Json

/-- lbraceChar is the literal left-brace character. -/
def lbraceChar : Char := Char.ofNat 123

/-- rbraceChar is the literal right-brace character. -/
def rbraceChar : Char := Char.ofNat 125

/-- skipWs drops leading JSON whitespace. -/
def skipWs : List Char → List Char
  | [] => []
  | c :: rest =>
    if c = ' ' ∨ c = '\n' ∨ c = '\t' ∨ c = '\r' then skipWs rest else c :: rest

/-- escChar maps a JSON string escape letter to the escaped character
(the `\u` form is not modelled). -/
def escChar (c : Char) : Option Char :=
  if c = '"' then some '"'
  else if c = '\\' then some '\\'
  else if c = '/' then some '/'
  else if c = 'n' then some '\n'
  else if c = 't' then some '\t'
  else if c = 'r' then some '\r'
  else if c = 'b' then some (Char.ofNat 8)
  else if c = 'f' then some (Char.ofNat 12)
  else none

/-- parseStrChars reads the body of a JSON string up to the closing quote,
returning the decoded characters and the remaining input. -/
def parseStrChars : List Char → Option (List Char × List Char)
  | [] => none
  | c :: rest =>
    if c = '"' then some ([], rest)
    else if c = '\\' then
      match rest with
      | [] => none
      | e :: rest2 =>
        match escChar e with
        | none => none
        | some d =>
          match parseStrChars rest2 with
          | none => none
          | some (s, rem) => some (d :: s, rem)
    else
      match parseStrChars rest with
      | none => none
      | some (s, rem) => some (c :: s, rem)

/-- digitVal is the numeric value of a decimal digit character. -/
def digitVal (c : Char) : Nat := c.toNat - 48

/-- takeDigits splits leading decimal digits off the input. -/
def takeDigits : List Char → (List Char × List Char)
  | [] => ([], [])
  | c :: rest =>
    if '0' ≤ c ∧ c ≤ '9' then
      let (ds, rem) := takeDigits rest
      (c :: ds, rem)
    else ([], c :: rest)

/-- digitsToNat folds decimal digits into a natural number. -/
def digitsToNat (ds : List Char) : Nat :=
  ds.foldl (fun acc c => 10 * acc + digitVal c) 0

/-- parseNum reads a JSON integer (optional minus sign and digits); a fractional
or exponent part is rejected, since numbers are modelled as integers. -/
def parseNum (cs : List Char) : Option (Int × List Char) :=
  let (neg, cs2) :=
    match cs with
    | c :: rest => if c = '-' then (true, rest) else (false, cs)
    | [] => (false, cs)
  match takeDigits cs2 with
  | ([], _) => none
  | (ds, rem) =>
    match rem with
    | c :: _ =>
      if c = '.' ∨ c = 'e' ∨ c = 'E' then none
      else some (if neg then -(digitsToNat ds : Int) else (digitsToNat ds : Int), rem)
    | [] => some (if neg then -(digitsToNat ds : Int) else (digitsToNat ds : Int), rem)

/-- startsWith checks that the input begins with the given characters. -/
def startsWith : List Char → List Char → Option (List Char)
  | [], rest => some rest
  | _, [] => none
  | p :: ps, c :: cs => if p = c then startsWith ps cs else none

mutual

/-- parseVal parses one JSON value from the input (fuel-indexed to stay total). -/
def parseVal : Nat → List Char → Option (Json × List Char)
  | 0, _ => none
  | Nat.succ fuel, input =>
    match skipWs input with
    | [] => none
    | c :: rest =>
      if c = '"' then
        match parseStrChars rest with
        | none => none
        | some (s, rem) => some (Json.str (String.mk s), rem)
      else if c = lbraceChar then
        parseObjItems fuel rest true
      else if c = '[' then
        parseArrItems fuel rest true
      else if c = 'n' then
        match startsWith ['u', 'l', 'l'] rest with
        | some rem => some (Json.null, rem)
        | none => none
      else if c = 't' then
        match startsWith ['r', 'u', 'e'] rest with
        | some rem => some (Json.bool true, rem)
        | none => none
      else if c = 'f' then
        match startsWith ['a', 'l', 's', 'e'] rest with
        | some rem => some (Json.bool false, rem)
        | none => none
      else
        match parseNum (c :: rest) with
        | some (n, rem) => some (Json.num n, rem)
        | none => none

/-- parseArrItems parses the elements of a JSON array after the opening bracket;
the flag marks whether no element has been consumed yet. -/
def parseArrItems : Nat → List Char → Bool → Option (Json × List Char)
  | 0, _, _ => none
  | Nat.succ fuel, input, first =>
    match skipWs input with
    | [] => none
    | c :: rest =>
      if c = ']' then
        if first then some (Json.arr [], rest) else none
      else
        match parseVal fuel (c :: rest) with
        | none => none
        | some (v, rem) =>
          match skipWs rem with
          | [] => none
          | d :: rem2 =>
            if d = ']' then some (Json.arr [v], rem2)
            else if d = ',' then
              match parseArrItems fuel rem2 false with
              | some (Json.arr vs, rem3) => some (Json.arr (v :: vs), rem3)
              | _ => none
            else none

/-- parseObjItems parses the members of a JSON object after the opening brace;
the flag marks whether no member has been consumed yet. -/
def parseObjItems : Nat → List Char → Bool → Option (Json × List Char)
  | 0, _, _ => none
  | Nat.succ fuel, input, first =>
    match skipWs input with
    | [] => none
    | c :: rest =>
      if c = rbraceChar then
        if first then some (Json.obj [], rest) else none
      else if c = '"' then
        match parseStrChars rest with
        | none => none
        | some (k, rem) =>
          match skipWs rem with
          | [] => none
          | d :: rem2 =>
            if d = ':' then
              match parseVal fuel rem2 with
              | none => none
              | some (v, rem3) =>
                match skipWs rem3 with
                | [] => none
                | e :: rem4 =>
                  if e = rbraceChar then
                    some (Json.obj [(String.mk k, v)], rem4)
                  else if e = ',' then
                    match parseObjItems fuel rem4 false with
                    | some (Json.obj kvs, rem5) =>
                      some (Json.obj ((String.mk k, v) :: kvs), rem5)
                    | _ => none
                  else none
            else none
      else none

end

/-- parseJson parses the first JSON value of a body, mirroring
`json.NewDecoder(resp.Body).Decode`, which reads one value and ignores
trailing input. -/
def parseJson (s : String) : Except String Json :=
  match parseVal (s.length + 1) s.data with
  | some (v, _) => Except.ok v
  | none => Except.error "invalid character in JSON input"

/-! Typed result structures, translated from `pkg/hangar/types.go`.
`time.Time` fields are carried as their raw RFC3339 string and Go maps are
modelled as association lists in JSON member order. -/

/-- Namespace identifies the owner and unique slug of a project. -/
structure Namespace where
  Owner : String
  Slug : String
deriving DecidableEq

/-- Stats contains engagement metrics for a project. -/
structure Stats where
  Views : Int
  Downloads : Int
  RecentViews : Int
  RecentDownloads : Int
  Stars : Int
  Watchers : Int
deriving DecidableEq

/-- Link represents an external link associated with the project. -/
structure Link where
  ID : Int
  Name : String
  URL : String
deriving DecidableEq

/-- License contains project license information (pointer fields are options;
the source field named Type is written with guillemets since Type is a Lean
keyword). -/
structure License where
  Name : Option String
  URL : Option String
  «Type» : String
deriving DecidableEq

/-- Donation contains donation/sponsorship configuration. -/
structure Donation where
  Enable : Bool
  Subject : String
deriving DecidableEq

/-- Settings contains project configuration and metadata. -/
structure Settings where
  Links : List Link
  Tags : List String
  License : License
  Keywords : List String
  Donation : Donation
deriving DecidableEq

/-- Project represents a plugin/mod project on Hangar. -/
structure Project where
  ID : Int
  Name : String
  Namespace : Namespace
  Category : String
  Description : String
  CreatedAt : String
  LastUpdated : String
  Stats : Stats
  Visibility : String
  AvatarURL : String
  Settings : Settings
deriving DecidableEq

/-- Pagination contains metadata for paginated responses. -/
structure Pagination where
  Count : Int
  Limit : Int
  Offset : Int
deriving DecidableEq

/-- ProjectsList represents a paginated list of projects. -/
structure ProjectsList where
  Pagination : Pagination
  Result : List Project
deriving DecidableEq

/-- VersionStats contains download statistics for a version. -/
structure VersionStats where
  TotalDownloads : Int
  PlatformDownloads : List (String × Int)
deriving DecidableEq

/-- FileInfo contains metadata about a version's downloadable file. -/
structure FileInfo where
  Name : String
  SizeBytes : Int
  SHA256Hash : String
deriving DecidableEq

/-- DownloadInfo contains download information for a specific platform. -/
structure DownloadInfo where
  FileInfo : Option FileInfo
  ExternalURL : String
  DownloadURL : String
deriving DecidableEq

/-- PluginDependency represents a required plugin dependency. -/
structure PluginDependency where
  Name : String
  ProjectID : Option Int
  Required : Bool
  ExternalURL : String
  Platform : String
deriving DecidableEq

/-- Channel represents a version release channel. -/
structure Channel where
  Name : String
  Description : String
  Color : String
  Flags : List String
  CreatedAt : String
deriving DecidableEq

/-- Version represents a specific version of a project. -/
structure Version where
  ID : Int
  ProjectID : Int
  Name : String
  Description : String
  CreatedAt : String
  Author : String
  Visibility : String
  ReviewState : String
  Stats : VersionStats
  Downloads : List (String × DownloadInfo)
  PluginDependencies : List (String × List PluginDependency)
  Channel : Channel
  PinnedStatus : String
deriving DecidableEq

/-- VersionsList represents a paginated list of versions. -/
structure VersionsList where
  Pagination : Pagination
  Result : List Version
deriving DecidableEq

/-- Role represents a user role. -/
structure Role where
  Name : String
  Category : String
  Color : String
deriving DecidableEq

/-- User represents a Hangar user. -/
structure User where
  Name : String
  TagLine : String
  JoinDate : String
  Roles : List Role
  ProjectCount : Int
  Locked : Bool
  AvatarURL : String
  Socials : List (String × String)
deriving DecidableEq

/-- UserList represents a paginated list of users. -/
structure UserList where
  Pagination : Pagination
  Result : List User
deriving DecidableEq

/-- ProjectMember represents a project team member. -/
structure ProjectMember where
  User : String
  Roles : List Role
  Accepted : Bool
deriving DecidableEq

/-- MemberList represents a paginated list of project members. -/
structure MemberList where
  Pagination : Pagination
  Result : List ProjectMember
deriving DecidableEq

/-- DailyStats contains statistics for a single day. -/
structure DailyStats where
  Downloads : Int
  Views : Int
deriving DecidableEq

/-- ProjectStats represents daily statistics for a project, keyed by date. -/
def ProjectStats : Type := List (String × DailyStats)

instance : DecidableEq ProjectStats :=
  inferInstanceAs (DecidableEq (List (String × DailyStats)))

/-- VersionStatsData represents daily statistics for a version, keyed by date. -/
def VersionStatsData : Type := List (String × DailyStats)

instance : DecidableEq VersionStatsData :=
  inferInstanceAs (DecidableEq (List (String × DailyStats)))

/-- Page represents a project page with Markdown content. -/
structure Page where
  ID : Int
  Name : String
  Slug : String
  Contents : String
deriving DecidableEq

/-- Author represents an author with project information. -/
structure Author where
  Name : String
  JoinDate : String
  ProjectCount : Int
  Roles : List Role
deriving DecidableEq

/-- AuthorList represents a paginated list of authors. -/
structure AuthorList where
  Pagination : Pagination
  Result : List Author
deriving DecidableEq

/-- StaffMember represents a Hangar staff member. -/
structure StaffMember where
  Name : String
  Roles : List Role
  JoinDate : String
deriving DecidableEq

/-! Decoders mirroring the `encoding/json` unmarshalling of each result type:
an absent or null member leaves the Go zero value, a member of the wrong JSON
type fails, unknown members are ignored.  Member lookup is by exact tag name
(the decoded bodies in this development use exact-case keys, so Go's
case-insensitive fallback is never exercised). -/

/-- getField looks a member up in a decoded JSON object. -/
def getField (fields : List (String × Json)) (k : String) : Option Json :=
  (fields.find? (fun p => p.1 = k)).map (fun p => p.2)

/-- decString decodes an optional member into a Go string field. -/
def decString : Option Json → Except String String
  | none => Except.ok ""
  | some Json.null => Except.ok ""
  | some (Json.str s) => Except.ok s
  | some _ => Except.error "cannot unmarshal value into string field"

/-- decInt decodes an optional member into a Go integer field. -/
def decInt : Option Json → Except String Int
  | none => Except.ok 0
  | some Json.null => Except.ok 0
  | some (Json.num n) => Except.ok n
  | some _ => Except.error "cannot unmarshal value into integer field"

/-- decBool decodes an optional member into a Go bool field. -/
def decBool : Option Json → Except String Bool
  | none => Except.ok false
  | some Json.null => Except.ok false
  | some (Json.bool b) => Except.ok b
  | some _ => Except.error "cannot unmarshal value into bool field"

/-- decOptString decodes an optional member into a Go string pointer field. -/
def decOptString : Option Json → Except String (Option String)
  | none => Except.ok none
  | some Json.null => Except.ok none
  | some (Json.str s) => Except.ok (some s)
  | some _ => Except.error "cannot unmarshal value into string pointer field"

/-- decOptInt decodes an optional member into a Go int64 pointer field. -/
def decOptInt : Option Json → Except String (Option Int)
  | none => Except.ok none
  | some Json.null => Except.ok none
  | some (Json.num n) => Except.ok (some n)
  | some _ => Except.error "cannot unmarshal value into integer pointer field"

/-- mapExcept applies a decoder to every element, failing on the first error. -/
def mapExcept (f : α → Except String β) : List α → Except String (List β)
  | [] => Except.ok []
  | x :: xs =>
    match f x with
    | Except.error e => Except.error e
    | Except.ok y =>
      match mapExcept f xs with
      | Except.error e => Except.error e
      | Except.ok ys => Except.ok (y :: ys)

/-- decList decodes an optional member into a Go slice field. -/
def decList (f : Json → Except String α) : Option Json → Except String (List α)
  | none => Except.ok []
  | some Json.null => Except.ok []
  | some (Json.arr xs) => mapExcept f xs
  | some _ => Except.error "cannot unmarshal value into slice field"

/-- decStrMap decodes an optional member into a Go map with string keys,
modelled as an association list in JSON member order. -/
def decStrMap (f : Json → Except String α) :
    Option Json → Except String (List (String × α))
  | none => Except.ok []
  | some Json.null => Except.ok []
  | some (Json.obj kvs) =>
    mapExcept (fun kv => (f kv.2).map (fun v => (kv.1, v))) kvs
  | some _ => Except.error "cannot unmarshal value into map field"

/-- decStringVal decodes a JSON value (a slice element) into a string. -/
def decStringVal : Json → Except String String
  | Json.str s => Except.ok s
  | Json.null => Except.ok ""
  | _ => Except.error "cannot unmarshal value into string"

/-- decIntVal decodes a JSON value into an integer. -/
def decIntVal : Json → Except String Int
  | Json.num n => Except.ok n
  | Json.null => Except.ok 0
  | _ => Except.error "cannot unmarshal value into integer"

/-- mapGet indexes a Go map modelled as an association list. -/
def mapGet (m : List (String × α)) (k : String) : Option α :=
  (m.find? (fun p => p.1 = k)).map (fun p => p.2)

/-- decodeRole decodes a Role value. -/
def decodeRole : Json → Except String Role
  | Json.null => Except.ok ⟨"", "", ""⟩
  | Json.obj f => do
    let name ← decString (getField f "name")
    let category ← decString (getField f "category")
    let color ← decString (getField f "color")
    Except.ok ⟨name, category, color⟩
  | _ => Except.error "cannot unmarshal value into Role"

/-- decodeFileInfo decodes a FileInfo value. -/
def decodeFileInfo : Json → Except String FileInfo
  | Json.null => Except.ok ⟨"", 0, ""⟩
  | Json.obj f => do
    let name ← decString (getField f "name")
    let size ← decInt (getField f "sizeBytes")
    let hash ← decString (getField f "sha256Hash")
    Except.ok ⟨name, size, hash⟩
  | _ => Except.error "cannot unmarshal value into FileInfo"

/-- decodeDownloadInfo decodes a DownloadInfo value; the fileInfo pointer is
none when the member is absent or null. -/
def decodeDownloadInfo : Json → Except String DownloadInfo
  | Json.null => Except.ok ⟨none, "", ""⟩
  | Json.obj f => do
    let fi ←
      match getField f "fileInfo" with
      | none => Except.ok (none : Option FileInfo)
      | some Json.null => Except.ok (none : Option FileInfo)
      | some v => (decodeFileInfo v).map some
    let ext ← decString (getField f "externalUrl")
    let dl ← decString (getField f "downloadUrl")
    Except.ok ⟨fi, ext, dl⟩
  | _ => Except.error "cannot unmarshal value into DownloadInfo"

/-- decodeChannel decodes a Channel value. -/
def decodeChannel : Json → Except String Channel
  | Json.null => Except.ok ⟨"", "", "", [], ""⟩
  | Json.obj f => do
    let name ← decString (getField f "name")
    let description ← decString (getField f "description")
    let color ← decString (getField f "color")
    let flags ← decList decStringVal (getField f "flags")
    let createdAt ← decString (getField f "createdAt")
    Except.ok ⟨name, description, color, flags, createdAt⟩
  | _ => Except.error "cannot unmarshal value into Channel"

/-- decodePluginDependency decodes a PluginDependency value. -/
def decodePluginDependency : Json → Except String PluginDependency
  | Json.null => Except.ok ⟨"", none, false, "", ""⟩
  | Json.obj f => do
    let name ← decString (getField f "name")
    let pid ← decOptInt (getField f "projectId")
    let req ← decBool (getField f "required")
    let ext ← decString (getField f "externalUrl")
    let platform ← decString (getField f "platform")
    Except.ok ⟨name, pid, req, ext, platform⟩
  | _ => Except.error "cannot unmarshal value into PluginDependency"

/-- decodeVersionStats decodes a VersionStats value. -/
def decodeVersionStats : Json → Except String VersionStats
  | Json.null => Except.ok ⟨0, []⟩
  | Json.obj f => do
    let total ← decInt (getField f "totalDownloads")
    let pd ← decStrMap decIntVal (getField f "platformDownloads")
    Except.ok ⟨total, pd⟩
  | _ => Except.error "cannot unmarshal value into VersionStats"

/-- decodeVersion decodes a Version value. -/
def decodeVersion : Json → Except String Version
  | Json.null =>
    Except.ok ⟨0, 0, "", "", "", "", "", "", ⟨0, []⟩, [], [], ⟨"", "", "", [], ""⟩, ""⟩
  | Json.obj f => do
    let id ← decInt (getField f "id")
    let projectId ← decInt (getField f "projectId")
    let name ← decString (getField f "name")
    let description ← decString (getField f "description")
    let createdAt ← decString (getField f "createdAt")
    let author ← decString (getField f "author")
    let visibility ← decString (getField f "visibility")
    let reviewState ← decString (getField f "reviewState")
    let stats ←
      match getField f "stats" with
      | none => Except.ok (⟨0, []⟩ : VersionStats)
      | some v => decodeVersionStats v
    let downloads ← decStrMap decodeDownloadInfo (getField f "downloads")
    let deps ← decStrMap (decList decodePluginDependency ∘ some)
      (getField f "pluginDependencies")
    let channel ←
      match getField f "channel" with
      | none => Except.ok (⟨"", "", "", [], ""⟩ : Channel)
      | some v => decodeChannel v
    let pinned ← decString (getField f "pinnedStatus")
    Except.ok ⟨id, projectId, name, description, createdAt, author, visibility,
      reviewState, stats, downloads, deps, channel, pinned⟩
  | _ => Except.error "cannot unmarshal value into Version"

/-- decodePagination decodes a Pagination value. -/
def decodePagination : Json → Except String Pagination
  | Json.null => Except.ok ⟨0, 0, 0⟩
  | Json.obj f => do
    let count ← decInt (getField f "count")
    let limit ← decInt (getField f "limit")
    let offset ← decInt (getField f "offset")
    Except.ok ⟨count, limit, offset⟩
  | _ => Except.error "cannot unmarshal value into Pagination"

/-- decodeVersionsList decodes a VersionsList envelope. -/
def decodeVersionsList : Json → Except String VersionsList
  | Json.null => Except.ok ⟨⟨0, 0, 0⟩, []⟩
  | Json.obj f => do
    let pagination ←
      match getField f "pagination" with
      | none => Except.ok (⟨0, 0, 0⟩ : Pagination)
      | some v => decodePagination v
    let result ← decList decodeVersion (getField f "result")
    Except.ok ⟨pagination, result⟩
  | _ => Except.error "cannot unmarshal value into VersionsList"

/-- decodeNamespace decodes a Namespace value. -/
def decodeNamespace : Json → Except String Namespace
  | Json.null => Except.ok ⟨"", ""⟩
  | Json.obj f => do
    let owner ← decString (getField f "owner")
    let slug ← decString (getField f "slug")
    Except.ok ⟨owner, slug⟩
  | _ => Except.error "cannot unmarshal value into Namespace"

/-- decodeStats decodes a Stats value. -/
def decodeStats : Json → Except String Stats
  | Json.null => Except.ok ⟨0, 0, 0, 0, 0, 0⟩
  | Json.obj f => do
    let views ← decInt (getField f "views")
    let downloads ← decInt (getField f "downloads")
    let recentViews ← decInt (getField f "recentViews")
    let recentDownloads ← decInt (getField f "recentDownloads")
    let stars ← decInt (getField f "stars")
    let watchers ← decInt (getField f "watchers")
    Except.ok ⟨views, downloads, recentViews, recentDownloads, stars, watchers⟩
  | _ => Except.error "cannot unmarshal value into Stats"

/-- decodeLink decodes a Link value. -/
def decodeLink : Json → Except String Link
  | Json.null => Except.ok ⟨0, "", ""⟩
  | Json.obj f => do
    let id ← decInt (getField f "id")
    let name ← decString (getField f "name")
    let url ← decString (getField f "url")
    Except.ok ⟨id, name, url⟩
  | _ => Except.error "cannot unmarshal value into Link"

/-- decodeLicense decodes a License value. -/
def decodeLicense : Json → Except String License
  | Json.null => Except.ok ⟨none, none, ""⟩
  | Json.obj f => do
    let name ← decOptString (getField f "name")
    let url ← decOptString (getField f "url")
    let ty ← decString (getField f "type")
    Except.ok ⟨name, url, ty⟩
  | _ => Except.error "cannot unmarshal value into License"

/-- decodeDonation decodes a Donation value. -/
def decodeDonation : Json → Except String Donation
  | Json.null => Except.ok ⟨false, ""⟩
  | Json.obj f => do
    let enable ← decBool (getField f "enable")
    let subject ← decString (getField f "subject")
    Except.ok ⟨enable, subject⟩
  | _ => Except.error "cannot unmarshal value into Donation"

/-- decodeSettings decodes a Settings value. -/
def decodeSettings : Json → Except String Settings
  | Json.null => Except.ok ⟨[], [], ⟨none, none, ""⟩, [], ⟨false, ""⟩⟩
  | Json.obj f => do
    let links ← decList decodeLink (getField f "links")
    let tags ← decList decStringVal (getField f "tags")
    let license ←
      match getField f "license" with
      | none => Except.ok (⟨none, none, ""⟩ : License)
      | some v => decodeLicense v
    let keywords ← decList decStringVal (getField f "keywords")
    let donation ←
      match getField f "donation" with
      | none => Except.ok (⟨false, ""⟩ : Donation)
      | some v => decodeDonation v
    Except.ok ⟨links, tags, license, keywords, donation⟩
  | _ => Except.error "cannot unmarshal value into Settings"

/-- decodeProject decodes a Project value. -/
def decodeProject : Json → Except String Project
  | Json.null =>
    Except.ok ⟨0, "", ⟨"", ""⟩, "", "", "", "", ⟨0, 0, 0, 0, 0, 0⟩, "", "",
      ⟨[], [], ⟨none, none, ""⟩, [], ⟨false, ""⟩⟩⟩
  | Json.obj f => do
    let id ← decInt (getField f "id")
    let name ← decString (getField f "name")
    let ns ←
      match getField f "namespace" with
      | none => Except.ok (⟨"", ""⟩ : Namespace)
      | some v => decodeNamespace v
    let category ← decString (getField f "category")
    let description ← decString (getField f "description")
    let createdAt ← decString (getField f "createdAt")
    let lastUpdated ← decString (getField f "lastUpdated")
    let stats ←
      match getField f "stats" with
      | none => Except.ok (⟨0, 0, 0, 0, 0, 0⟩ : Stats)
      | some v => decodeStats v
    let visibility ← decString (getField f "visibility")
    let avatarUrl ← decString (getField f "avatarUrl")
    let settings ←
      match getField f "settings" with
      | none =>
        Except.ok (⟨[], [], ⟨none, none, ""⟩, [], ⟨false, ""⟩⟩ : Settings)
      | some v => decodeSettings v
    Except.ok ⟨id, name, ns, category, description, createdAt, lastUpdated,
      stats, visibility, avatarUrl, settings⟩
  | _ => Except.error "cannot unmarshal value into Project"

/-- decodeProjectsList decodes a ProjectsList envelope. -/
def decodeProjectsList : Json → Except String ProjectsList
  | Json.null => Except.ok ⟨⟨0, 0, 0⟩, []⟩
  | Json.obj f => do
    let pagination ←
      match getField f "pagination" with
      | none => Except.ok (⟨0, 0, 0⟩ : Pagination)
      | some v => decodePagination v
    let result ← decList decodeProject (getField f "result")
    Except.ok ⟨pagination, result⟩
  | _ => Except.error "cannot unmarshal value into ProjectsList"

/-- decodeUser decodes a User value. -/
def decodeUser : Json → Except String User
  | Json.null => Except.ok ⟨"", "", "", [], 0, false, "", []⟩
  | Json.obj f => do
    let name ← decString (getField f "name")
    let tagline ← decString (getField f "tagline")
    let joinDate ← decString (getField f "joinDate")
    let roles ← decList decodeRole (getField f "roles")
    let projectCount ← decInt (getField f "projectCount")
    let locked ← decBool (getField f "locked")
    let avatarUrl ← decString (getField f "avatarUrl")
    let socials ← decStrMap decStringVal (getField f "socials")
    Except.ok ⟨name, tagline, joinDate, roles, projectCount, locked, avatarUrl,
      socials⟩
  | _ => Except.error "cannot unmarshal value into User"

/-- decodeUserList decodes a UserList envelope. -/
def decodeUserList : Json → Except String UserList
  | Json.null => Except.ok ⟨⟨0, 0, 0⟩, []⟩
  | Json.obj f => do
    let pagination ←
      match getField f "pagination" with
      | none => Except.ok (⟨0, 0, 0⟩ : Pagination)
      | some v => decodePagination v
    let result ← decList decodeUser (getField f "result")
    Except.ok ⟨pagination, result⟩
  | _ => Except.error "cannot unmarshal value into UserList"

/-- decodeProjectMember decodes a ProjectMember value. -/
def decodeProjectMember : Json → Except String ProjectMember
  | Json.null => Except.ok ⟨"", [], false⟩
  | Json.obj f => do
    let user ← decString (getField f "user")
    let roles ← decList decodeRole (getField f "roles")
    let accepted ← decBool (getField f "accepted")
    Except.ok ⟨user, roles, accepted⟩
  | _ => Except.error "cannot unmarshal value into ProjectMember"

/-- decodeMemberList decodes a MemberList envelope. -/
def decodeMemberList : Json → Except String MemberList
  | Json.null => Except.ok ⟨⟨0, 0, 0⟩, []⟩
  | Json.obj f => do
    let pagination ←
      match getField f "pagination" with
      | none => Except.ok (⟨0, 0, 0⟩ : Pagination)
      | some v => decodePagination v
    let result ← decList decodeProjectMember (getField f "result")
    Except.ok ⟨pagination, result⟩
  | _ => Except.error "cannot unmarshal value into MemberList"

/-- decodeDailyStats decodes a DailyStats value. -/
def decodeDailyStats : Json → Except String DailyStats
  | Json.null => Except.ok ⟨0, 0⟩
  | Json.obj f => do
    let downloads ← decInt (getField f "downloads")
    let views ← decInt (getField f "views")
    Except.ok ⟨downloads, views⟩
  | _ => Except.error "cannot unmarshal value into DailyStats"

/-- decodeProjectStats decodes a date-keyed statistics map. -/
def decodeProjectStats (j : Json) : Except String ProjectStats :=
  decStrMap decodeDailyStats (some j)

/-- decodeVersionStatsData decodes a date-keyed statistics map. -/
def decodeVersionStatsData (j : Json) : Except String VersionStatsData :=
  decStrMap decodeDailyStats (some j)

/-- decodePage decodes a Page value. -/
def decodePage : Json → Except String Page
  | Json.null => Except.ok ⟨0, "", "", ""⟩
  | Json.obj f => do
    let id ← decInt (getField f "id")
    let name ← decString (getField f "name")
    let slug ← decString (getField f "slug")
    let contents ← decString (getField f "contents")
    Except.ok ⟨id, name, slug, contents⟩
  | _ => Except.error "cannot unmarshal value into Page"

/-- decodeAuthor decodes an Author value. -/
def decodeAuthor : Json → Except String Author
  | Json.null => Except.ok ⟨"", "", 0, []⟩
  | Json.obj f => do
    let name ← decString (getField f "name")
    let joinDate ← decString (getField f "joinDate")
    let projectCount ← decInt (getField f "projectCount")
    let roles ← decList decodeRole (getField f "roles")
    Except.ok ⟨name, joinDate, projectCount, roles⟩
  | _ => Except.error "cannot unmarshal value into Author"

/-- decodeAuthorList decodes an AuthorList envelope. -/
def decodeAuthorList : Json → Except String AuthorList
  | Json.null => Except.ok ⟨⟨0, 0, 0⟩, []⟩
  | Json.obj f => do
    let pagination ←
      match getField f "pagination" with
      | none => Except.ok (⟨0, 0, 0⟩ : Pagination)
      | some v => decodePagination v
    let result ← decList decodeAuthor (getField f "result")
    Except.ok ⟨pagination, result⟩
  | _ => Except.error "cannot unmarshal value into AuthorList"

/-- decodeStaffMember decodes a StaffMember value. -/
def decodeStaffMember : Json → Except String StaffMember
  | Json.null => Except.ok ⟨"", [], ""⟩
  | Json.obj f => do
    let name ← decString (getField f "name")
    let roles ← decList decodeRole (getField f "roles")
    let joinDate ← decString (getField f "joinDate")
    Except.ok ⟨name, roles, joinDate⟩
  | _ => Except.error "cannot unmarshal value into StaffMember"

/-- decodeStaffList decodes the bare JSON array returned by the staff endpoint
into a slice of StaffMember values. -/
def decodeStaffList (j : Json) : Except String (List StaffMember) :=
  decList decodeStaffMember (some j)

/-! URL escaping, translated from `net/url` as used by the client:
`url.PathEscape` (mode encodePathSegment) and `url.QueryEscape`
(mode encodeQueryComponent), working character-by-character on byte values. -/

/-- isUnreservedByte holds for RFC 3986 unreserved bytes: alphanumerics and
the marks minus, underscore, dot and tilde. -/
def isUnreservedByte (n : Nat) : Bool :=
  (48 ≤ n ∧ n ≤ 57) ∨ (65 ≤ n ∧ n ≤ 90) ∨ (97 ≤ n ∧ n ≤ 122) ∨
    n = 45 ∨ n = 95 ∨ n = 46 ∨ n = 126

/-- shouldEscapePathSeg mirrors `shouldEscape(c, encodePathSegment)`: escape
everything except unreserved bytes and the reserved characters dollar,
ampersand, plus, colon, equals and at-sign (slash, semicolon, comma and
question mark are escaped inside a path segment). -/
def shouldEscapePathSeg (n : Nat) : Bool :=
  !(isUnreservedByte n ∨ n = 36 ∨ n = 38 ∨ n = 43 ∨ n = 58 ∨ n = 61 ∨ n = 64)

/-- hexDigitChar is the upper-case hexadecimal digit for a value below 16. -/
def hexDigitChar (n : Nat) : Char :=
  if n < 10 then Char.ofNat (48 + n) else Char.ofNat (55 + n)

/-- escapePathChar percent-escapes one character of a path segment. -/
def escapePathChar (c : Char) : List Char :=
  if shouldEscapePathSeg c.toNat then
    ['%', hexDigitChar (c.toNat / 16), hexDigitChar (c.toNat % 16)]
  else [c]

/-- pathEscape mirrors `url.PathEscape`. -/
def pathEscape (s : String) : String :=
  String.mk (s.data.flatMap escapePathChar)

/-- shouldEscapeQuery mirrors `shouldEscape(c, encodeQueryComponent)`: escape
everything except unreserved bytes (space becomes a plus sign, handled in
`escapeQueryChar`). -/
def shouldEscapeQuery (n : Nat) : Bool :=
  !(isUnreservedByte n)

/-- escapeQueryChar percent-escapes one character of a query component. -/
def escapeQueryChar (c : Char) : List Char :=
  if c = ' ' then ['+']
  else if shouldEscapeQuery c.toNat then
    ['%', hexDigitChar (c.toNat / 16), hexDigitChar (c.toNat % 16)]
  else [c]

/-- queryEscape mirrors `url.QueryEscape`. -/
def queryEscape (s : String) : String :=
  String.mk (s.data.flatMap escapeQueryChar)

/-- unhexDigit is the value of a hexadecimal digit character, either case. -/
def unhexDigit (c : Char) : Option Nat :=
  if '0' ≤ c ∧ c ≤ '9' then some (c.toNat - 48)
  else if 'a' ≤ c ∧ c ≤ 'f' then some (c.toNat - 87)
  else if 'A' ≤ c ∧ c ≤ 'F' then some (c.toNat - 55)
  else none

/-- pathUnescapeChars mirrors `url.PathUnescape` on character lists: every
percent must be followed by two hexadecimal digits, all other characters pass
through unchanged. -/
def pathUnescapeChars : List Char → Option (List Char)
  | [] => some []
  | c :: rest =>
    if c = '%' then
      match rest with
      | h :: l :: rest2 =>
        match unhexDigit h, unhexDigit l with
        | some hv, some lv =>
          match pathUnescapeChars rest2 with
          | some r => some (Char.ofNat (16 * hv + lv) :: r)
          | none => none
        | _, _ => none
      | _ => none
    else
      match pathUnescapeChars rest with
      | some r => some (c :: r)
      | none => none

/-- pathUnescape mirrors `url.PathUnescape`. -/
def pathUnescape (s : String) : Option String :=
  (pathUnescapeChars s.data).map String.mk

/-- itoa mirrors `strconv.Itoa`. -/
def itoa (n : Int) : String := toString n

/-- Values models `url.Values` as an association list in insertion order. -/
abbrev Values : Type := List (String × String)

/-- Values.set mirrors `url.Values.Set`: replace the key's value or append. -/
def Values.set : Values → String → String → Values
  | [], k, v => [(k, v)]
  | (k', v') :: rest, k, v =>
    if k' = k then (k, v) :: rest else (k', v') :: Values.set rest k v

/-- strLeChars is byte-wise lexicographic order on character lists, the order
`sort.Strings` uses on Go strings. -/
def strLeChars : List Char → List Char → Bool
  | [], _ => true
  | _ :: _, [] => false
  | a :: as, b :: bs =>
    if a.toNat < b.toNat then true
    else if b.toNat < a.toNat then false
    else strLeChars as bs

/-- strLe compares two strings in byte-wise lexicographic order. -/
def strLe (a b : String) : Bool := strLeChars a.data b.data

/-- insertByKey inserts a pair into a key-sorted list. -/
def insertByKey (p : String × String) :
    List (String × String) → List (String × String)
  | [] => [p]
  | q :: rest => if strLe p.1 q.1 then p :: q :: rest else q :: insertByKey p rest

/-- sortByKey sorts pairs by key (`url.Values.Encode` sorts its keys with
`sort.Strings`, modelled here by insertion sort). -/
def sortByKey : List (String × String) → List (String × String)
  | [] => []
  | p :: rest => insertByKey p (sortByKey rest)

/-- Values.encode mirrors `url.Values.Encode`: keys in sorted order, each key
and value query-escaped, pairs joined with ampersands. -/
def Values.encode (vs : Values) : String :=
  String.intercalate "&"
    ((sortByKey vs).map (fun p => queryEscape p.1 ++ "=" ++ queryEscape p.2))

/-! Client construction and the request layer, from `pkg/hangar/client.go`. -/

/-- DefaultBaseURL is the default Hangar API base URL. -/
def DefaultBaseURL : String := "https://hangar.papermc.io/api/v1"

/-- DefaultTimeout is the default HTTP client timeout (30s in nanoseconds,
Go durations being integer nanosecond counts). -/
def DefaultTimeout : Int := 30000000000

/-- DefaultLimit is the default pagination limit. -/
def DefaultLimit : Int := 25

/-- HTTPClient stands for a `*http.Client`; only the timeout configuration is
observable in this model, the rest of the value is irrelevant to the claims. -/
structure HTTPClient where
  Timeout : Int
deriving DecidableEq

/-- Config contains configuration for the Hangar client. -/
structure Config where
  BaseURL : String
  Token : String
  Timeout : Int
  HTTPClient : Option HTTPClient
deriving DecidableEq

/-- Client is the Hangar API client. -/
structure Client where
  baseURL : String
  token : String
  httpClient : HTTPClient
deriving DecidableEq

/-- NewClient creates a new Hangar API client, translated line by line from
the source: empty base URL and nil HTTP client get defaults, and the timeout
default applies only when a client is being constructed. -/
def NewClient (cfg : Config) : Client :=
  let baseURL := if cfg.BaseURL = "" then DefaultBaseURL else cfg.BaseURL
  let httpClient :=
    match cfg.HTTPClient with
    | some h => h
    | none =>
      ⟨if cfg.Timeout = 0 then DefaultTimeout else cfg.Timeout⟩
  ⟨baseURL, cfg.Token, httpClient⟩

/-- ListOptions contains options for listing resources. -/
structure ListOptions where
  Limit : Int
  Offset : Int
  Category : String
deriving DecidableEq

/-- Request is an outbound HTTP request as built by `doRequest`. -/
structure Request where
  method : String
  url : String
  headers : List (String × String)
deriving DecidableEq

/-- Response is what the transport returns: a status code and a raw body. -/
structure Response where
  statusCode : Int
  body : String
deriving DecidableEq

/-- Transport models `http.Client.Do`: a request either fails at the transport
level or yields a response. -/
def Transport : Type := Request → Except String Response

/-- buildHeaders mirrors the header block of `doRequest`: Accept and
User-Agent always, Authorization only when a token is configured. -/
def buildHeaders (token : String) : List (String × String) :=
  [("Accept", "application/json"), ("User-Agent", "go-hangar/1.0")] ++
    (if token ≠ "" then [("Authorization", "Bearer " ++ token)] else [])

/-- doRequest performs an HTTP request with proper error handling, translated
from the source: transport failures are wrapped, a status outside 200..299
fails with the status code and raw body embedded in the message, and a 2xx
body is decoded as JSON into the operation's result type.  Every operation
result is paired with the list of requests issued. -/
def doRequest (c : Client) (tr : Transport) (method url : String)
    (decode : Json → Except String α) : Except String α × List Request :=
  let req : Request := ⟨method, url, buildHeaders c.token⟩
  match tr req with
  | Except.error e => (Except.error ("HTTP request failed: " ++ e), [req])
  | Except.ok resp =>
    if resp.statusCode < 200 ∨ 300 ≤ resp.statusCode then
      (Except.error ("API request failed with status " ++
        toString resp.statusCode ++ ": " ++ resp.body), [req])
    else
      match parseJson resp.body with
      | Except.error e =>
        (Except.error ("failed to decode response: " ++ e), [req])
      | Except.ok j =>
        match decode j with
        | Except.error e =>
          (Except.error ("failed to decode response: " ++ e), [req])
        | Except.ok v => (Except.ok v, [req])

/-- wrapErr mirrors `errors.Wrap(err, msg)` on the failure branch of each
operation. -/
def wrapErr (msg : String) :
    Except String α × List Request → Except String α × List Request
  | (Except.error e, reqs) => (Except.error (msg ++ ": " ++ e), reqs)
  | (Except.ok v, reqs) => (Except.ok v, reqs)

/-! Per-operation contracts, translated from `pkg/hangar/client.go`.  Each
operation validates its required arguments, builds its URL, and performs one
GET (GetDownloadURL performs its lookup through ListVersions). -/

/-- GetProject retrieves information about a specific project. -/
def GetProject (c : Client) (tr : Transport) (slug : String) :
    Except String Project × List Request :=
  if slug = "" then (Except.error "slug cannot be empty", [])
  else
    let endpoint := c.baseURL ++ "/projects/" ++ pathEscape slug
    wrapErr "failed to get project" (doRequest c tr "GET" endpoint decodeProject)

/-- listProjectsParams is the query-parameter block of ListProjects: limit
defaults to 25 when zero, offset is always sent, category only when
non-empty. -/
def listProjectsParams (opts : ListOptions) : Values :=
  let params : Values := []
  let limit := if opts.Limit = 0 then DefaultLimit else opts.Limit
  let params := Values.set params "limit" (itoa limit)
  let params := Values.set params "offset" (itoa opts.Offset)
  if opts.Category ≠ "" then Values.set params "category" opts.Category
  else params

/-- ListProjects retrieves a paginated list of projects. -/
def ListProjects (c : Client) (tr : Transport) (opts : ListOptions) :
    Except String ProjectsList × List Request :=
  let endpoint := c.baseURL ++ "/projects"
  let fullURL := endpoint ++ "?" ++ Values.encode (listProjectsParams opts)
  wrapErr "failed to list projects" (doRequest c tr "GET" fullURL decodeProjectsList)

/-- paginationParams is the limit/offset query block shared verbatim by the
remaining list operations: limit defaults to 25 when zero, offset is always
sent. -/
def paginationParams (opts : ListOptions) : Values :=
  let params : Values := []
  let limit := if opts.Limit = 0 then DefaultLimit else opts.Limit
  let params := Values.set params "limit" (itoa limit)
  Values.set params "offset" (itoa opts.Offset)

/-- ListVersions retrieves a paginated list of versions for a project. -/
def ListVersions (c : Client) (tr : Transport) (owner slug : String)
    (opts : ListOptions) : Except String VersionsList × List Request :=
  if owner = "" then (Except.error "owner cannot be empty", [])
  else if slug = "" then (Except.error "slug cannot be empty", [])
  else
    let endpoint := c.baseURL ++ "/projects/" ++ pathEscape owner ++ "/" ++
      pathEscape slug ++ "/versions"
    let fullURL := endpoint ++ "?" ++ Values.encode (paginationParams opts)
    wrapErr "failed to list versions"
      (doRequest c tr "GET" fullURL decodeVersionsList)

/-- findDownloadURL is the scan inside GetDownloadURL: find the first version
with the exact name, then prefer its hosted download URL for the platform and
fall back to the external URL. -/
def findDownloadURL : List Version → String → String → Except String String
  | [], version, _ => Except.error ("version " ++ version ++ " not found")
  | v :: rest, version, platform =>
    if v.Name = version then
      match mapGet v.Downloads platform with
      | some di =>
        if di.DownloadURL ≠ "" then Except.ok di.DownloadURL
        else if di.ExternalURL ≠ "" then Except.ok di.ExternalURL
        else Except.error ("no download URL found for platform " ++ platform)
      | none => Except.error ("no download URL found for platform " ++ platform)
    else findDownloadURL rest version platform

/-- GetDownloadURL retrieves the download URL for a specific version by
listing up to 100 versions and scanning for the requested name. -/
def GetDownloadURL (c : Client) (tr : Transport)
    (owner slug version platform : String) :
    Except String String × List Request :=
  if owner = "" then (Except.error "owner cannot be empty", [])
  else if slug = "" then (Except.error "slug cannot be empty", [])
  else if version = "" then (Except.error "version cannot be empty", [])
  else
    let platform := if platform = "" then "PAPER" else platform
    match ListVersions c tr owner slug ⟨100, 0, ""⟩ with
    | (Except.error e, reqs) =>
      (Except.error ("failed to list versions: " ++ e), reqs)
    | (Except.ok versions, reqs) =>
      (findDownloadURL versions.Result version platform, reqs)

/-- listUsersParams is the query-parameter block of ListUsers. -/
def listUsersParams (query : String) (opts : ListOptions) : Values :=
  let params := paginationParams opts
  if query ≠ "" then Values.set params "query" query else params

/-- ListUsers retrieves a paginated list of users matching a query. -/
def ListUsers (c : Client) (tr : Transport) (query : String)
    (opts : ListOptions) : Except String UserList × List Request :=
  let endpoint := c.baseURL ++ "/users"
  let fullURL := endpoint ++ "?" ++ Values.encode (listUsersParams query opts)
  wrapErr "failed to list users" (doRequest c tr "GET" fullURL decodeUserList)

/-- GetUser retrieves detailed information about a specific user. -/
def GetUser (c : Client) (tr : Transport) (username : String) :
    Except String User × List Request :=
  if username = "" then (Except.error "username cannot be empty", [])
  else
    let endpoint := c.baseURL ++ "/users/" ++ pathEscape username
    wrapErr "failed to get user" (doRequest c tr "GET" endpoint decodeUser)

/-- GetUserStarred retrieves projects starred by a user. -/
def GetUserStarred (c : Client) (tr : Transport) (username : String)
    (opts : ListOptions) : Except String ProjectsList × List Request :=
  if username = "" then (Except.error "username cannot be empty", [])
  else
    let endpoint := c.baseURL ++ "/users/" ++ pathEscape username ++ "/starred"
    let fullURL := endpoint ++ "?" ++ Values.encode (paginationParams opts)
    wrapErr "failed to get starred projects"
      (doRequest c tr "GET" fullURL decodeProjectsList)

/-- GetUserWatching retrieves projects watched by a user. -/
def GetUserWatching (c : Client) (tr : Transport) (username : String)
    (opts : ListOptions) : Except String ProjectsList × List Request :=
  if username = "" then (Except.error "username cannot be empty", [])
  else
    let endpoint := c.baseURL ++ "/users/" ++ pathEscape username ++ "/watching"
    let fullURL := endpoint ++ "?" ++ Values.encode (paginationParams opts)
    wrapErr "failed to get watching projects"
      (doRequest c tr "GET" fullURL decodeProjectsList)

/-- GetUserPinned retrieves projects pinned by a user (no pagination block in
the source). -/
def GetUserPinned (c : Client) (tr : Transport) (username : String) :
    Except String ProjectsList × List Request :=
  if username = "" then (Except.error "username cannot be empty", [])
  else
    let endpoint := c.baseURL ++ "/users/" ++ pathEscape username ++ "/pinned"
    wrapErr "failed to get pinned projects"
      (doRequest c tr "GET" endpoint decodeProjectsList)

/-- ListAuthors retrieves a paginated list of authors. -/
def ListAuthors (c : Client) (tr : Transport) (opts : ListOptions) :
    Except String AuthorList × List Request :=
  let endpoint := c.baseURL ++ "/authors"
  let fullURL := endpoint ++ "?" ++ Values.encode (paginationParams opts)
  wrapErr "failed to list authors" (doRequest c tr "GET" fullURL decodeAuthorList)

/-- ListStaff retrieves the list of Hangar staff members (a bare array). -/
def ListStaff (c : Client) (tr : Transport) :
    Except String (List StaffMember) × List Request :=
  let endpoint := c.baseURL ++ "/staff"
  wrapErr "failed to list staff" (doRequest c tr "GET" endpoint decodeStaffList)

/-- GetVersionByID retrieves a version by its unique ID. -/
def GetVersionByID (c : Client) (tr : Transport) (versionID : Int) :
    Except String Version × List Request :=
  if versionID ≤ 0 then (Except.error "versionID must be positive", [])
  else
    let endpoint := c.baseURL ++ "/versions/" ++ itoa versionID
    wrapErr "failed to get version" (doRequest c tr "GET" endpoint decodeVersion)

/-- GetVersionByHash retrieves a version by its file hash. -/
def GetVersionByHash (c : Client) (tr : Transport) (hash : String) :
    Except String Version × List Request :=
  if hash = "" then (Except.error "hash cannot be empty", [])
  else
    let endpoint := c.baseURL ++ "/versions/find/" ++ pathEscape hash
    wrapErr "failed to find version by hash"
      (doRequest c tr "GET" endpoint decodeVersion)

/-- GetProjectMembers retrieves the list of project team members. -/
def GetProjectMembers (c : Client) (tr : Transport) (slug : String)
    (opts : ListOptions) : Except String MemberList × List Request :=
  if slug = "" then (Except.error "slug cannot be empty", [])
  else
    let endpoint := c.baseURL ++ "/projects/" ++ pathEscape slug ++ "/members"
    let fullURL := endpoint ++ "?" ++ Values.encode (paginationParams opts)
    wrapErr "failed to get project members"
      (doRequest c tr "GET" fullURL decodeMemberList)

/-- GetProjectStargazers retrieves users who starred the project. -/
def GetProjectStargazers (c : Client) (tr : Transport) (slug : String)
    (opts : ListOptions) : Except String UserList × List Request :=
  if slug = "" then (Except.error "slug cannot be empty", [])
  else
    let endpoint := c.baseURL ++ "/projects/" ++ pathEscape slug ++ "/stargazers"
    let fullURL := endpoint ++ "?" ++ Values.encode (paginationParams opts)
    wrapErr "failed to get project stargazers"
      (doRequest c tr "GET" fullURL decodeUserList)

/-- GetProjectWatchers retrieves users watching the project. -/
def GetProjectWatchers (c : Client) (tr : Transport) (slug : String)
    (opts : ListOptions) : Except String UserList × List Request :=
  if slug = "" then (Except.error "slug cannot be empty", [])
  else
    let endpoint := c.baseURL ++ "/projects/" ++ pathEscape slug ++ "/watchers"
    let fullURL := endpoint ++ "?" ++ Values.encode (paginationParams opts)
    wrapErr "failed to get project watchers"
      (doRequest c tr "GET" fullURL decodeUserList)

/-- dateParams is the optional date-range query block of the two statistics
operations: each date is sent verbatim only when non-empty. -/
def dateParams (fromDate toDate : String) : Values :=
  let params : Values := []
  let params := if fromDate ≠ "" then Values.set params "fromDate" fromDate
    else params
  if toDate ≠ "" then Values.set params "toDate" toDate else params

/-- GetProjectStats retrieves daily statistics for a project. -/
def GetProjectStats (c : Client) (tr : Transport)
    (slug fromDate toDate : String) :
    Except String ProjectStats × List Request :=
  if slug = "" then (Except.error "slug cannot be empty", [])
  else
    let endpoint := c.baseURL ++ "/projects/" ++ pathEscape slug ++ "/stats"
    let params := dateParams fromDate toDate
    let fullURL :=
      if params.length > 0 then endpoint ++ "?" ++ Values.encode params
      else endpoint
    wrapErr "failed to get project stats"
      (doRequest c tr "GET" fullURL decodeProjectStats)

/-- GetVersionStats retrieves daily statistics for a specific version. -/
def GetVersionStats (c : Client) (tr : Transport)
    (slug version fromDate toDate : String) :
    Except String VersionStatsData × List Request :=
  if slug = "" then (Except.error "slug cannot be empty", [])
  else if version = "" then (Except.error "version cannot be empty", [])
  else
    let endpoint := c.baseURL ++ "/projects/" ++ pathEscape slug ++
      "/versions/" ++ pathEscape version ++ "/stats"
    let params := dateParams fromDate toDate
    let fullURL :=
      if params.length > 0 then endpoint ++ "?" ++ Values.encode params
      else endpoint
    wrapErr "failed to get version stats"
      (doRequest c tr "GET" fullURL decodeVersionStatsData)

/-- GetProjectPage retrieves a specific page content from a project; an empty
page path defaults to home.  The response body is decoded as JSON through the
shared doRequest path, exactly like every other operation. -/
def GetProjectPage (c : Client) (tr : Transport) (slug pagePath : String) :
    Except String Page × List Request :=
  if slug = "" then (Except.error "slug cannot be empty", [])
  else
    let pagePath := if pagePath = "" then "home" else pagePath
    let endpoint := c.baseURL ++ "/projects/" ++ pathEscape slug ++ "/pages/" ++
      pathEscape pagePath
    wrapErr "failed to get project page"
      (doRequest c tr "GET" endpoint decodePage)

/-- GetProjectMainPage retrieves the main page of a project by delegating to
GetProjectPage with the home path. -/
def GetProjectMainPage (c : Client) (tr : Transport) (slug : String) :
    Except String Page × List Request :=
  GetProjectPage c tr slug "home"

/-- latestVersionParams is the optional filter block of GetLatestVersion. -/
def latestVersionParams (channel platform minecraftVersion : String) : Values :=
  let params : Values := []
  let params := if channel ≠ "" then Values.set params "channel" channel
    else params
  let params := if platform ≠ "" then Values.set params "platform" platform
    else params
  if minecraftVersion ≠ "" then
    Values.set params "platformVersion" minecraftVersion
  else params

/-- GetLatestVersion retrieves the latest version of a project with optional
filters, in a single request whose body is decoded as JSON into a Version. -/
def GetLatestVersion (c : Client) (tr : Transport)
    (slug channel platform minecraftVersion : String) :
    Except String Version × List Request :=
  if slug = "" then (Except.error "slug cannot be empty", [])
  else
    let endpoint := c.baseURL ++ "/projects/" ++ pathEscape slug ++ "/latest"
    let params := latestVersionParams channel platform minecraftVersion
    let fullURL :=
      if params.length > 0 then endpoint ++ "?" ++ Values.encode params
      else endpoint
    wrapErr "failed to get latest version"
      (doRequest c tr "GET" fullURL decodeVersion)

/-- GetLatestReleaseVersion retrieves the latest release version of a project
by delegating to GetLatestVersion with the Release channel. -/
def GetLatestReleaseVersion (c : Client) (tr : Transport) (slug : String) :
    Except String Version × List Request :=
  GetLatestVersion c tr slug "Release" "" ""

/-! Concrete fixtures used by witnesses and counterexamples: a client, a
versions response modelled on the repository's own test data, and transports
serving it. -/

/-- testClient is a concrete client for witnesses. -/
def testClient : Client := ⟨"http://srv", "", ⟨30000000000⟩⟩

/-- versionsBody is a versions-list response body modelled on the repository
test fixture for GetDownloadURL (external URL present, hosted URL empty). -/
def versionsBody : String :=
  "\x7b\"pagination\":\x7b\"count\":1,\"limit\":100,\"offset\":0\x7d," ++
  "\"result\":[\x7b\"id\":7728,\"name\":\"2.0.1\",\"author\":\"testowner\"," ++
  "\"downloads\":\x7b\"PAPER\":\x7b\"fileInfo\":null," ++
  "\"externalUrl\":\"https://cdn.test.com/testplugin-2.0.1.jar\"," ++
  "\"downloadUrl\":\"\"\x7d\x7d\x7d]\x7d"

/-- versionsValue is the decoded form of versionsBody. -/
def versionsValue : VersionsList :=
  ⟨⟨1, 100, 0⟩,
   [⟨7728, 0, "2.0.1", "", "", "testowner", "", "", ⟨0, []⟩,
     [("PAPER", ⟨none, "https://cdn.test.com/testplugin-2.0.1.jar", ""⟩)],
     [], ⟨"", "", "", [], ""⟩, ""⟩]⟩

/-- versionsTransport serves versionsBody on the versions route. -/
def versionsTransport : Transport := fun req =>
  if req.url =
      "http://srv/projects/testowner/testplugin/versions?limit=100&offset=0"
  then Except.ok ⟨200, versionsBody⟩
  else Except.error ("no route: " ++ req.url)

deriving instance DecidableEq for Except

/-- downTransport is a transport whose server is unreachable; validation
errors must not depend on it. -/
def downTransport : Transport := fun _ => Except.error "unreachable"

/-- bothURLsBody is a versions response whose PAPER download entry carries
both an external and a hosted URL. -/
def bothURLsBody : String :=
  "\x7b\"pagination\":\x7b\"count\":1,\"limit\":100,\"offset\":0\x7d," ++
  "\"result\":[\x7b\"id\":1,\"name\":\"2.0.1\"," ++
  "\"downloads\":\x7b\"PAPER\":\x7b\"fileInfo\":null," ++
  "\"externalUrl\":\"https://ext.test/p.jar\"," ++
  "\"downloadUrl\":\"https://hangar.test/dl.jar\"\x7d\x7d\x7d]\x7d"

/-- pageTextBody is the raw Markdown body the repository's own page test
serves (contents of TestClient_GetProjectPage_Success). -/
def pageTextBody : String := "# Welcome\nThis is the home page"

/-- pageTextTransport serves the raw page text with status 200 on every
route, like the repository's page test server. -/
def pageTextTransport : Transport := fun _ => Except.ok ⟨200, pageTextBody⟩

/-- latestTextTransport serves the raw version-name text the repository's own
latest-version test serves on the first request. -/
def latestTextTransport : Transport := fun _ => Except.ok ⟨200, "3.0.0"⟩

/-! Helper lemmas shared by the claim theorems. -/

/-- wrapErr_snd: wrapping an error message does not change the issued
requests. -/
theorem wrapErr_snd (msg : String) (r : Except String α × List Request) :
    (wrapErr msg r).2 = r.2 := by
  rcases r with ⟨fst, snd⟩
  cases fst <;> rfl

/-- doRequest_snd: doRequest always issues exactly its one request, whatever
the transport answers. -/
theorem doRequest_snd (c : Client) (tr : Transport) (method url : String)
    (decode : Json → Except String α) :
    (doRequest c tr method url decode).2 =
      [⟨method, url, buildHeaders c.token⟩] := by
  unfold doRequest
  dsimp only
  split
  · rfl
  · split
    · rfl
    · split
      · rfl
      · split <;> rfl

/-- C8: for every client, transport and slug, GetProjectMainPage returns
exactly what GetProjectPage returns at the home path, and an empty page path
defaults to home, so GetProjectPage at the empty path agrees too. -/
theorem getProjectPage_home_default (c : Client) (tr : Transport)
    (slug : String) :
    GetProjectMainPage c tr slug = GetProjectPage c tr slug "home" ∧
    GetProjectPage c tr slug "" = GetProjectPage c tr slug "home" := by
  refine ⟨rfl, ?_⟩
  by_cases hs : slug = ""
  · simp [GetProjectPage, hs]
  · simp [GetProjectPage, hs]

/-- C9: a non-nil HTTPClient in the configuration is used unchanged, the
Timeout field then has no effect at all, and when no HTTP client is supplied
the 30s default applies exactly when Timeout is zero. -/
theorem newClient_custom_httpClient (cfg : Config) (h : HTTPClient) (t : Int)
    (hc : cfg.HTTPClient = some h) :
    (NewClient cfg).httpClient = h ∧
    NewClient { cfg with Timeout := t } = NewClient cfg ∧
    (∀ cfg2 : Config, cfg2.HTTPClient = none →
      (NewClient cfg2).httpClient =
        ⟨if cfg2.Timeout = 0 then DefaultTimeout else cfg2.Timeout⟩) := by
  refine ⟨?_, ?_, ?_⟩
  · simp [NewClient, hc]
  · simp [NewClient, hc]
  · intro cfg2 h2
    simp [NewClient, h2]

/-- Witness for C9 at a concrete configuration: a supplied client with its own
5ns timeout is kept even though the config asks for 7, and changing the config
timeout to 99 changes nothing. -/
theorem newClient_custom_httpClient_witness :
    (NewClient ⟨"", "tok", 7, some ⟨5⟩⟩).httpClient = ⟨5⟩ ∧
    NewClient ⟨"", "tok", 99, some ⟨5⟩⟩ = NewClient ⟨"", "tok", 7, some ⟨5⟩⟩ ∧
    (NewClient ⟨"", "tok", 0, none⟩).httpClient = ⟨DefaultTimeout⟩ := by
  have h := newClient_custom_httpClient ⟨"", "tok", 7, some ⟨5⟩⟩ ⟨5⟩ 99 rfl
  exact ⟨h.1, h.2.1, by simpa using h.2.2 ⟨"", "tok", 0, none⟩ rfl⟩

/-- C2: every operation with a required argument rejects an empty required
string (or non-positive version id) with a fixed validation error and an
empty request list, for every transport: nothing is sent and the outcome is
independent of server state. -/
theorem validation_before_request (c : Client) (tr : Transport)
    (opts : ListOptions) (s o v p fd td ch mv : String) (id : Int)
    (ho : o ≠ "") (hs : s ≠ "") (hid : id ≤ 0) :
    GetProject c tr "" = (Except.error "slug cannot be empty", []) ∧
    ListVersions c tr "" s opts = (Except.error "owner cannot be empty", []) ∧
    ListVersions c tr o "" opts = (Except.error "slug cannot be empty", []) ∧
    GetDownloadURL c tr "" s v p = (Except.error "owner cannot be empty", []) ∧
    GetDownloadURL c tr o "" v p = (Except.error "slug cannot be empty", []) ∧
    GetDownloadURL c tr o s "" p =
      (Except.error "version cannot be empty", []) ∧
    GetUser c tr "" = (Except.error "username cannot be empty", []) ∧
    GetUserStarred c tr "" opts =
      (Except.error "username cannot be empty", []) ∧
    GetUserWatching c tr "" opts =
      (Except.error "username cannot be empty", []) ∧
    GetUserPinned c tr "" = (Except.error "username cannot be empty", []) ∧
    GetVersionByID c tr id = (Except.error "versionID must be positive", []) ∧
    GetVersionByHash c tr "" = (Except.error "hash cannot be empty", []) ∧
    GetProjectMembers c tr "" opts = (Except.error "slug cannot be empty", []) ∧
    GetProjectStargazers c tr "" opts =
      (Except.error "slug cannot be empty", []) ∧
    GetProjectWatchers c tr "" opts =
      (Except.error "slug cannot be empty", []) ∧
    GetProjectStats c tr "" fd td = (Except.error "slug cannot be empty", []) ∧
    GetVersionStats c tr "" v fd td =
      (Except.error "slug cannot be empty", []) ∧
    GetVersionStats c tr s "" fd td =
      (Except.error "version cannot be empty", []) ∧
    GetProjectPage c tr "" p = (Except.error "slug cannot be empty", []) ∧
    GetProjectMainPage c tr "" = (Except.error "slug cannot be empty", []) ∧
    GetLatestVersion c tr "" ch p mv =
      (Except.error "slug cannot be empty", []) ∧
    GetLatestReleaseVersion c tr "" =
      (Except.error "slug cannot be empty", []) := by
  refine ⟨rfl, rfl, ?_, rfl, ?_, ?_, rfl, rfl, rfl, rfl, ?_, rfl, rfl, rfl,
    rfl, rfl, rfl, ?_, rfl, rfl, rfl, rfl⟩
  · simp [ListVersions, ho]
  · simp [GetDownloadURL, ho]
  · simp [GetDownloadURL, ho, hs]
  · simp [GetVersionByID, hid]
  · simp [GetVersionStats, hs]

/-- Witness for C2 at concrete inputs: with the server unreachable, an empty
slug, an empty version and a zero id still produce the fixed validation
errors with no request issued. -/
theorem validation_before_request_witness :
    GetProject testClient downTransport "" =
      (Except.error "slug cannot be empty", []) ∧
    GetDownloadURL testClient downTransport "o" "s" "" "PAPER" =
      (Except.error "version cannot be empty", []) ∧
    GetVersionByID testClient downTransport 0 =
      (Except.error "versionID must be positive", []) := by
  have h := validation_before_request testClient downTransport ⟨0, 0, ""⟩
    "s" "o" "v" "PAPER" "" "" "" "" 0 (by decide) (by decide) (by decide)
  exact ⟨h.1, h.2.2.2.2.2.1, h.2.2.2.2.2.2.2.2.2.2.1⟩

/-- C3: a response with a status outside 200..299 makes the operation fail
with an error embedding the numeric status code and the raw body text, and in
particular a 404 response makes GetProject fail with an error containing 404. -/
theorem non2xx_error_embeds_status (c : Client) (tr : Transport)
    (method url : String) (decode : Json → Except String α)
    (status : Int) (body : String)
    (hresp : tr ⟨method, url, buildHeaders c.token⟩ = Except.ok ⟨status, body⟩)
    (hstatus : status < 200 ∨ 300 ≤ status) :
    (doRequest c tr method url decode).1 =
      Except.error ("API request failed with status " ++ toString status ++
        ": " ++ body) ∧
    (∃ a b, "API request failed with status " ++ toString status ++ ": " ++
      body = a ++ toString status ++ b) ∧
    (∃ a b, "API request failed with status " ++ toString status ++ ": " ++
      body = a ++ body ++ b) ∧
    (∀ slug, slug ≠ "" → ∀ tr2 : Transport,
      tr2 ⟨"GET", c.baseURL ++ "/projects/" ++ pathEscape slug,
        buildHeaders c.token⟩ = Except.ok ⟨404, body⟩ →
      (GetProject c tr2 slug).1 = Except.error
        ("failed to get project: API request failed with status 404: " ++
          body) ∧
      ∃ a b, "failed to get project: API request failed with status 404: " ++
        body = a ++ "404" ++ b) := by
  refine ⟨?_, ?_, ?_, ?_⟩
  · unfold doRequest
    dsimp only
    rw [hresp]
    dsimp only
    rw [if_pos hstatus]
  · exact ⟨"API request failed with status ", ": " ++ body,
      by simp [String.append_assoc]⟩
  · exact ⟨"API request failed with status " ++ toString status ++ ": ", "",
      by simp [String.append_assoc]⟩
  · intro slug hslug tr2 h2
    constructor
    · unfold GetProject
      rw [if_neg hslug]
      unfold doRequest wrapErr
      dsimp only
      rw [h2]
      dsimp only
      rw [if_pos (by norm_num : (404 : Int) < 200 ∨ (300 : Int) ≤ 404)]
      rfl
    · exact ⟨"failed to get project: API request failed with status ",
        ": " ++ body, rfl⟩

/-- Witness for C3: a 404 response with the repository test's error body
makes GetProject fail with the full diagnostic message. -/
theorem non2xx_error_embeds_status_witness :
    (GetProject testClient
      (fun _ => Except.ok ⟨404, "\x7b\"error\": \"project not found\"\x7d"⟩)
      "nonexistent").1 =
      Except.error ("failed to get project: API request failed with status 404: \x7b\"error\": \"project not found\"\x7d") := by
  have h := non2xx_error_embeds_status testClient
    (fun _ => Except.ok ⟨404, "\x7b\"error\": \"project not found\"\x7d"⟩)
    "GET" "u" decodeProject 404 "\x7b\"error\": \"project not found\"\x7d"
    rfl (by norm_num)
  exact (h.2.2.2 "nonexistent" (by decide)
    (fun _ => Except.ok ⟨404, "\x7b\"error\": \"project not found\"\x7d"⟩)
    rfl).1

/-- paginationParams_eq: the shared limit/offset block in explicit form. -/
theorem paginationParams_eq (opts : ListOptions) :
    paginationParams opts =
      [("limit", itoa (if opts.Limit = 0 then DefaultLimit else opts.Limit)),
       ("offset", itoa opts.Offset)] := by
  simp [paginationParams, Values.set]

/-- listProjectsParams_eq: the ListProjects query block in explicit form. -/
theorem listProjectsParams_eq (opts : ListOptions) :
    listProjectsParams opts =
      (if opts.Category ≠ "" then
        [("limit", itoa (if opts.Limit = 0 then DefaultLimit else opts.Limit)),
         ("offset", itoa opts.Offset), ("category", opts.Category)]
      else
        [("limit", itoa (if opts.Limit = 0 then DefaultLimit else opts.Limit)),
         ("offset", itoa opts.Offset)]) := by
  by_cases hc : opts.Category = "" <;> simp [listProjectsParams, Values.set, hc]

/-- listUsersParams_eq: the ListUsers query block in explicit form. -/
theorem listUsersParams_eq (q : String) (opts : ListOptions) :
    listUsersParams q opts =
      (if q ≠ "" then
        [("limit", itoa (if opts.Limit = 0 then DefaultLimit else opts.Limit)),
         ("offset", itoa opts.Offset), ("query", q)]
      else
        [("limit", itoa (if opts.Limit = 0 then DefaultLimit else opts.Limit)),
         ("offset", itoa opts.Offset)]) := by
  by_cases hq : q = "" <;>
    simp [listUsersParams, paginationParams, Values.set, hq]

/-- itoa_defaultLimit: the default limit renders as the decimal 25. -/
theorem itoa_defaultLimit : itoa DefaultLimit = "25" := rfl

/-- C4: every list operation sends limit=25 when Limit is zero and offset=0
explicitly when Offset is zero, the category parameter of ListProjects is
present exactly when Category is non-empty, and each of the nine operations
issues exactly one request whose URL carries its encoded query block. -/
theorem list_options_defaults (c : Client) (tr : Transport)
    (opts : ListOptions) (q owner slug username : String)
    (ho : owner ≠ "") (hs : slug ≠ "") (hu : username ≠ "") :
    (opts.Limit = 0 →
      ("limit", "25") ∈ listProjectsParams opts ∧
      ("limit", "25") ∈ paginationParams opts ∧
      ("limit", "25") ∈ listUsersParams q opts) ∧
    (opts.Offset = 0 →
      ("offset", "0") ∈ listProjectsParams opts ∧
      ("offset", "0") ∈ paginationParams opts ∧
      ("offset", "0") ∈ listUsersParams q opts) ∧
    (("category", opts.Category) ∈ listProjectsParams opts ↔
      opts.Category ≠ "") ∧
    (ListProjects c tr opts).2 = [⟨"GET", c.baseURL ++ "/projects" ++ "?" ++
      Values.encode (listProjectsParams opts), buildHeaders c.token⟩] ∧
    (ListVersions c tr owner slug opts).2 = [⟨"GET",
      c.baseURL ++ "/projects/" ++ pathEscape owner ++ "/" ++
        pathEscape slug ++ "/versions" ++ "?" ++
        Values.encode (paginationParams opts), buildHeaders c.token⟩] ∧
    (ListUsers c tr q opts).2 = [⟨"GET", c.baseURL ++ "/users" ++ "?" ++
      Values.encode (listUsersParams q opts), buildHeaders c.token⟩] ∧
    (GetUserStarred c tr username opts).2 = [⟨"GET",
      c.baseURL ++ "/users/" ++ pathEscape username ++ "/starred" ++ "?" ++
        Values.encode (paginationParams opts), buildHeaders c.token⟩] ∧
    (GetUserWatching c tr username opts).2 = [⟨"GET",
      c.baseURL ++ "/users/" ++ pathEscape username ++ "/watching" ++ "?" ++
        Values.encode (paginationParams opts), buildHeaders c.token⟩] ∧
    (ListAuthors c tr opts).2 = [⟨"GET", c.baseURL ++ "/authors" ++ "?" ++
      Values.encode (paginationParams opts), buildHeaders c.token⟩] ∧
    (GetProjectMembers c tr slug opts).2 = [⟨"GET",
      c.baseURL ++ "/projects/" ++ pathEscape slug ++ "/members" ++ "?" ++
        Values.encode (paginationParams opts), buildHeaders c.token⟩] ∧
    (GetProjectStargazers c tr slug opts).2 = [⟨"GET",
      c.baseURL ++ "/projects/" ++ pathEscape slug ++ "/stargazers" ++ "?" ++
        Values.encode (paginationParams opts), buildHeaders c.token⟩] ∧
    (GetProjectWatchers c tr slug opts).2 = [⟨"GET",
      c.baseURL ++ "/projects/" ++ pathEscape slug ++ "/watchers" ++ "?" ++
        Values.encode (paginationParams opts), buildHeaders c.token⟩] := by
  refine ⟨?_, ?_, ?_, ?_, ?_, ?_, ?_, ?_, ?_, ?_, ?_, ?_⟩
  · intro hl
    refine ⟨?_, ?_, ?_⟩ <;>
      simp [listProjectsParams_eq, paginationParams_eq, listUsersParams_eq,
        hl, itoa_defaultLimit] <;>
      split <;> simp
  · intro hoff
    have h0 : itoa 0 = "0" := rfl
    refine ⟨?_, ?_, ?_⟩ <;>
      simp [listProjectsParams_eq, paginationParams_eq, listUsersParams_eq,
        hoff, h0] <;>
      split <;> simp
  · constructor
    · intro hmem
      rw [listProjectsParams_eq] at hmem
      intro hcat
      simp [hcat] at hmem
    · intro hcat
      simp [listProjectsParams_eq, hcat]
  · simp [ListProjects, wrapErr_snd, doRequest_snd]
  · simp [ListVersions, ho, hs, wrapErr_snd, doRequest_snd]
  · simp [ListUsers, wrapErr_snd, doRequest_snd]
  · simp [GetUserStarred, hu, wrapErr_snd, doRequest_snd]
  · simp [GetUserWatching, hu, wrapErr_snd, doRequest_snd]
  · simp [ListAuthors, wrapErr_snd, doRequest_snd]
  · simp [GetProjectMembers, hs, wrapErr_snd, doRequest_snd]
  · simp [GetProjectStargazers, hs, wrapErr_snd, doRequest_snd]
  · simp [GetProjectWatchers, hs, wrapErr_snd, doRequest_snd]

/-- Witness for C4 at concrete options: zero limit and offset with a category
filter produce the concrete URL with limit=25, offset=0 and the category. -/
theorem list_options_defaults_witness :
    ("limit", "25") ∈ listProjectsParams ⟨0, 0, "gameplay"⟩ ∧
    ("offset", "0") ∈ listProjectsParams ⟨0, 0, "gameplay"⟩ ∧
    ("category", "gameplay") ∈ listProjectsParams ⟨0, 0, "gameplay"⟩ ∧
    (ListProjects testClient downTransport ⟨0, 0, "gameplay"⟩).2 =
      [⟨"GET", "http://srv/projects?category=gameplay&limit=25&offset=0",
        buildHeaders ""⟩] := by
  have h := list_options_defaults testClient downTransport ⟨0, 0, "gameplay"⟩
    "bob" "o" "s" "u" (by decide) (by decide) (by decide)
  refine ⟨(h.1 rfl).1, (h.2.1 rfl).1, h.2.2.1.mpr (by decide), ?_⟩
  rw [h.2.2.2.1]
  decide

/-- C10: for every ListOptions with a negative Limit or a negative Offset,
the query blocks carry Offset verbatim in every case, carry Limit verbatim
whenever it is not exactly zero (negative values are neither defaulted nor
clamped, and neither are positive ones), and substitute the default 25 for
Limit exactly when it is zero. -/
theorem negative_options_verbatim (opts : ListOptions) (q : String)
    (_h : opts.Limit < 0 ∨ opts.Offset < 0) :
    ("offset", itoa opts.Offset) ∈ paginationParams opts ∧
    ("offset", itoa opts.Offset) ∈ listProjectsParams opts ∧
    ("offset", itoa opts.Offset) ∈ listUsersParams q opts ∧
    (opts.Limit ≠ 0 →
      paginationParams opts =
        [("limit", itoa opts.Limit), ("offset", itoa opts.Offset)] ∧
      listProjectsParams opts =
        (if opts.Category ≠ "" then
          [("limit", itoa opts.Limit), ("offset", itoa opts.Offset),
           ("category", opts.Category)]
        else [("limit", itoa opts.Limit), ("offset", itoa opts.Offset)]) ∧
      listUsersParams q opts =
        (if q ≠ "" then
          [("limit", itoa opts.Limit), ("offset", itoa opts.Offset),
           ("query", q)]
        else [("limit", itoa opts.Limit), ("offset", itoa opts.Offset)]) ∧
      ("limit", itoa opts.Limit) ∈ listProjectsParams opts) ∧
    (opts.Limit = 0 →
      paginationParams opts =
        [("limit", "25"), ("offset", itoa opts.Offset)] ∧
      listProjectsParams opts =
        (if opts.Category ≠ "" then
          [("limit", "25"), ("offset", itoa opts.Offset),
           ("category", opts.Category)]
        else [("limit", "25"), ("offset", itoa opts.Offset)])) := by
  refine ⟨?_, ?_, ?_, ?_, ?_⟩
  · simp [paginationParams_eq]
  · simp [listProjectsParams_eq]
    split <;> simp
  · simp [listUsersParams_eq]
    split <;> simp
  · intro hne
    refine ⟨?_, ?_, ?_, ?_⟩
    · simp [paginationParams_eq, hne]
    · simp [listProjectsParams_eq, hne]
    · simp [listUsersParams_eq, hne]
    · simp [listProjectsParams_eq, hne]
      split <;> simp
  · intro hl
    refine ⟨?_, ?_⟩
    · simp [paginationParams_eq, hl, itoa_defaultLimit]
    · simp [listProjectsParams_eq, hl, itoa_defaultLimit]

/-- Witness for C10 at three concrete option values inside the claim's scope:
Limit -5 with Offset -7 renders both verbatim into the request URL, a
negative Offset with Limit zero keeps the verbatim offset while only then the
default 25 applies, and a positive Limit 7 with Offset -3 is not defaulted. -/
theorem negative_options_verbatim_witness :
    paginationParams ⟨-5, -7, ""⟩ = [("limit", "-5"), ("offset", "-7")] ∧
    Values.encode (paginationParams ⟨-5, -7, ""⟩) = "limit=-5&offset=-7" ∧
    (ListProjects testClient downTransport ⟨-5, -7, ""⟩).2 =
      [⟨"GET", "http://srv/projects?limit=-5&offset=-7", buildHeaders ""⟩] ∧
    paginationParams ⟨0, -7, ""⟩ = [("limit", "25"), ("offset", "-7")] ∧
    paginationParams ⟨7, -3, ""⟩ = [("limit", "7"), ("offset", "-3")] := by
  have h1 := negative_options_verbatim ⟨-5, -7, ""⟩ "" (Or.inl (by decide))
  have h2 := negative_options_verbatim ⟨0, -7, ""⟩ "" (Or.inr (by decide))
  have h3 := negative_options_verbatim ⟨7, -3, ""⟩ "" (Or.inr (by decide))
  refine ⟨?_, by decide, by decide, ?_, ?_⟩
  · rw [(h1.2.2.2.1 (by decide)).1]
    decide
  · rw [(h2.2.2.2.2 rfl).1]
    decide
  · rw [(h3.2.2.2.1 (by decide)).1]
    decide

/-- findDownloadURL_eq: the scan finds the first version whose name equals
the requested one exactly, then prefers the hosted URL over the external one
and fails when the platform entry is missing or carries neither URL. -/
theorem findDownloadURL_eq (vs : List Version) (version platform : String) :
    findDownloadURL vs version platform =
      (match vs.find? (fun w => w.Name == version) with
      | none => Except.error ("version " ++ version ++ " not found")
      | some v =>
        match mapGet v.Downloads platform with
        | some di =>
          if di.DownloadURL ≠ "" then Except.ok di.DownloadURL
          else if di.ExternalURL ≠ "" then Except.ok di.ExternalURL
          else Except.error ("no download URL found for platform " ++ platform)
        | none =>
          Except.error ("no download URL found for platform " ++ platform)) := by
  induction vs with
  | nil => rfl
  | cons v rest ih =>
    by_cases hname : v.Name = version
    · rw [List.find?_cons_of_pos _ (by simp [hname])]
      simp [findDownloadURL, hname]
    · rw [List.find?_cons_of_neg _ (by simp [hname])]
      rw [← ih]
      simp [findDownloadURL, hname]

/-- C1: with non-empty arguments, GetDownloadURL issues exactly one request,
the versions listing with limit 100 and offset 0; and when that listing
decodes to a versions list, the result is the linear scan over its entries:
the first exact name match wins, its hosted download URL is preferred, the
external URL is the fallback, a matched version without a usable URL for the
platform fails, and an absent name fails. -/
theorem getDownloadURL_spec (c : Client) (tr : Transport)
    (owner slug version platform : String) (vl : VersionsList)
    (ho : owner ≠ "") (hs : slug ≠ "") (hv : version ≠ "") (hp : platform ≠ "")
    (hlist : (ListVersions c tr owner slug ⟨100, 0, ""⟩).1 = Except.ok vl) :
    (GetDownloadURL c tr owner slug version platform).2 =
      [⟨"GET", c.baseURL ++ "/projects/" ++ pathEscape owner ++ "/" ++
        pathEscape slug ++ "/versions" ++ "?" ++ "limit=100&offset=0",
        buildHeaders c.token⟩] ∧
    (GetDownloadURL c tr owner slug version platform).1 =
      findDownloadURL vl.Result version platform ∧
    findDownloadURL vl.Result version platform =
      (match vl.Result.find? (fun w => w.Name == version) with
      | none => Except.error ("version " ++ version ++ " not found")
      | some v =>
        match mapGet v.Downloads platform with
        | some di =>
          if di.DownloadURL ≠ "" then Except.ok di.DownloadURL
          else if di.ExternalURL ≠ "" then Except.ok di.ExternalURL
          else Except.error ("no download URL found for platform " ++ platform)
        | none =>
          Except.error ("no download URL found for platform " ++ platform)) := by
  have henc : Values.encode (paginationParams ⟨100, 0, ""⟩) =
      "limit=100&offset=0" := by decide
  have hsnd : (ListVersions c tr owner slug ⟨100, 0, ""⟩).2 =
      [⟨"GET", c.baseURL ++ "/projects/" ++ pathEscape owner ++ "/" ++
        pathEscape slug ++ "/versions" ++ "?" ++ "limit=100&offset=0",
        buildHeaders c.token⟩] := by
    simp [ListVersions, ho, hs, wrapErr_snd, doRequest_snd, henc]
  unfold GetDownloadURL
  rw [if_neg ho, if_neg hs, if_neg hv]
  dsimp only
  rw [if_neg hp]
  rcases hpair : ListVersions c tr owner slug ⟨100, 0, ""⟩ with ⟨res, reqs⟩
  rw [hpair] at hlist hsnd
  dsimp only at hlist hsnd
  subst hlist
  exact ⟨hsnd, rfl, findDownloadURL_eq vl.Result version platform⟩

set_option maxRecDepth 400000 in
/-- Witness for C1 on the repository's own fixture: the external URL is
returned when only it is present, an unknown version name fails, and a
platform without an entry fails. -/
theorem getDownloadURL_spec_witness :
    (GetDownloadURL testClient versionsTransport "testowner" "testplugin"
      "2.0.1" "PAPER").1 =
      Except.ok "https://cdn.test.com/testplugin-2.0.1.jar" ∧
    (GetDownloadURL testClient versionsTransport "testowner" "testplugin"
      "9.9.9" "PAPER").1 = Except.error "version 9.9.9 not found" ∧
    (GetDownloadURL testClient versionsTransport "testowner" "testplugin"
      "2.0.1" "VELOCITY").1 =
      Except.error "no download URL found for platform VELOCITY" := by
  have h1 := getDownloadURL_spec testClient versionsTransport "testowner"
    "testplugin" "2.0.1" "PAPER" versionsValue (by decide) (by decide)
    (by decide) (by decide) (by decide)
  have h2 := getDownloadURL_spec testClient versionsTransport "testowner"
    "testplugin" "9.9.9" "PAPER" versionsValue (by decide) (by decide)
    (by decide) (by decide) (by decide)
  have h3 := getDownloadURL_spec testClient versionsTransport "testowner"
    "testplugin" "2.0.1" "VELOCITY" versionsValue (by decide) (by decide)
    (by decide) (by decide) (by decide)
  refine ⟨?_, ?_, ?_⟩
  · rw [h1.2.1]
    decide
  · rw [h2.2.1]
    decide
  · rw [h3.2.1]
    decide


/-- unhex_hexDigitChar: decoding inverts the upper-case hex digit encoding
below 16. -/
theorem unhex_hexDigitChar (m : Nat) (h : m < 16) :
    unhexDigit (hexDigitChar m) = some m := by
  interval_cases m <;> decide

/-- percent_escaped: the percent sign itself is always escaped in a path
segment. -/
theorem percent_escaped : shouldEscapePathSeg ('%'.toNat) = true := by decide

/-- pathUnescapeChars_escape: unescaping inverts the per-character path
escaping of any byte string. -/
theorem pathUnescapeChars_escape (cl : List Char)
    (h : ∀ ch ∈ cl, ch.toNat < 256) :
    pathUnescapeChars (cl.flatMap escapePathChar) = some cl := by
  induction cl with
  | nil => rfl
  | cons ch rest ih =>
    have hch : ch.toNat < 256 := h ch (by simp)
    have hrest : ∀ x ∈ rest, x.toNat < 256 := fun x hx => h x (by simp [hx])
    rw [List.flatMap_cons]
    by_cases hesc : shouldEscapePathSeg ch.toNat
    · have hdiv : ch.toNat / 16 < 16 := by omega
      have hmod : ch.toNat % 16 < 16 := Nat.mod_lt _ (by norm_num)
      rw [escapePathChar, if_pos hesc]
      show pathUnescapeChars ('%' :: hexDigitChar (ch.toNat / 16) ::
        hexDigitChar (ch.toNat % 16) :: rest.flatMap escapePathChar) =
        some (ch :: rest)
      rw [pathUnescapeChars]
      rw [if_pos rfl]
      rw [unhex_hexDigitChar _ hdiv, unhex_hexDigitChar _ hmod]
      rw [ih hrest]
      show some (Char.ofNat (16 * (ch.toNat / 16) + ch.toNat % 16) :: rest) =
        some (ch :: rest)
      rw [Nat.div_add_mod ch.toNat 16, Char.ofNat_toNat]
    · have hne : ch ≠ '%' := by
        intro e
        rw [e] at hesc
        exact hesc percent_escaped
      rw [escapePathChar, if_neg hesc]
      show pathUnescapeChars (ch :: rest.flatMap escapePathChar) =
        some (ch :: rest)
      rw [pathUnescapeChars.eq_def]
      dsimp only
      rw [if_neg hne]
      rw [ih hrest]

/-- pathUnescape_pathEscape: PathUnescape recovers any byte string from its
PathEscape image. -/
theorem pathUnescape_pathEscape (s : String)
    (h : ∀ ch ∈ s.data, ch.toNat < 256) :
    pathUnescape (pathEscape s) = some s := by
  unfold pathUnescape pathEscape
  rw [show (String.mk (s.data.flatMap escapePathChar)).data =
    s.data.flatMap escapePathChar from rfl]
  rw [pathUnescapeChars_escape s.data h]
  rfl

/-- appendRightCancel: appending on the left is injective for strings. -/
theorem appendRightCancel (s a b : String) (h : s ++ a = s ++ b) : a = b := by
  apply String.ext
  have := congrArg String.data h
  simp only [String.data_append] at this
  exact List.append_cancel_left this

/-- C5: every user-supplied path segment enters the request URL exactly as its
percent-escaped form: GetProject and GetVersionByHash issue their single
request at the base URL followed by the escaped segment, escaping round-trips
through PathUnescape, and distinct byte-string segments always yield distinct
request paths. -/
theorem path_segments_escaped (c : Client) (tr : Transport)
    (slug hash slug2 : String) (hs : slug ≠ "") (hh : hash ≠ "")
    (hb : ∀ ch ∈ slug.data, ch.toNat < 256)
    (hb2 : ∀ ch ∈ slug2.data, ch.toNat < 256)
    (hbh : ∀ ch ∈ hash.data, ch.toNat < 256) :
    (GetProject c tr slug).2 = [⟨"GET",
      c.baseURL ++ "/projects/" ++ pathEscape slug, buildHeaders c.token⟩] ∧
    (GetVersionByHash c tr hash).2 = [⟨"GET",
      c.baseURL ++ "/versions/find/" ++ pathEscape hash,
      buildHeaders c.token⟩] ∧
    pathUnescape (pathEscape slug) = some slug ∧
    pathUnescape (pathEscape hash) = some hash ∧
    (c.baseURL ++ "/projects/" ++ pathEscape slug =
      c.baseURL ++ "/projects/" ++ pathEscape slug2 → slug = slug2) := by
  refine ⟨?_, ?_, pathUnescape_pathEscape slug hb,
    pathUnescape_pathEscape hash hbh, ?_⟩
  · simp [GetProject, hs, wrapErr_snd, doRequest_snd]
  · simp [GetVersionByHash, hh, wrapErr_snd, doRequest_snd]
  · intro hurl
    rw [String.append_assoc, String.append_assoc] at hurl
    have h1 := appendRightCancel _ _ _ hurl
    have h2 := appendRightCancel _ _ _ h1
    have r1 := pathUnescape_pathEscape slug hb
    have r2 := pathUnescape_pathEscape slug2 hb2
    rw [h2] at r1
    rw [r1] at r2
    exact Option.some.inj r2

/-- Witness for C5 at a slug with a space, a slash, a question mark and a
percent sign: the URL carries the escaped form once, and unescaping recovers
the original. -/
theorem path_segments_escaped_witness :
    (GetProject testClient downTransport "my plugin/v1?x=%").2 =
      [⟨"GET", "http://srv/projects/my%20plugin%2Fv1%3Fx=%25",
        buildHeaders ""⟩] ∧
    pathEscape "my plugin/v1?x=%" = "my%20plugin%2Fv1%3Fx=%25" ∧
    pathUnescape "my%20plugin%2Fv1%3Fx=%25" = some "my plugin/v1?x=%" := by
  have h := path_segments_escaped testClient downTransport "my plugin/v1?x=%"
    "abc" "other" (by decide) (by decide) (by decide) (by decide) (by decide)
  refine ⟨?_, by decide, ?_⟩
  · rw [h.1]
    decide
  · have r := h.2.2.1
    rw [show pathEscape "my plugin/v1?x=%" = "my%20plugin%2Fv1%3Fx=%25"
      from by decide] at r
    exact r

set_option maxRecDepth 400000 in
/-- Counterexample to C6: decoding a versions response whose PAPER entry has
both externalUrl and downloadUrl non-empty succeeds, and the decoded
DownloadInfo carries both URLs populated, so it is not the case that exactly
one of them is ever populated. -/
theorem downloadInfo_both_counterexample :
    (ListVersions testClient (fun _ => Except.ok ⟨200, bothURLsBody⟩)
      "o" "s" ⟨100, 0, ""⟩).1 =
      Except.ok ⟨⟨1, 100, 0⟩,
        [⟨1, 0, "2.0.1", "", "", "", "", "", ⟨0, []⟩,
          [("PAPER", ⟨none, "https://ext.test/p.jar",
            "https://hangar.test/dl.jar"⟩)],
          [], ⟨"", "", "", [], ""⟩, ""⟩]⟩ ∧
    ("https://ext.test/p.jar" ≠ "" ∧ "https://hangar.test/dl.jar" ≠ "") := by
  constructor
  · decide
  · constructor <;> decide

/-- C6 amended: the decoder copies both URL fields of a DownloadInfo verbatim
and enforces no exclusivity between them; exclusivity is an API-side
convention only, and GetDownloadURL prefers the hosted URL when both are
present. -/
theorem decodeDownloadInfo_verbatim (e d : String) :
    decodeDownloadInfo (Json.obj [("fileInfo", Json.null),
      ("externalUrl", Json.str e), ("downloadUrl", Json.str d)]) =
      Except.ok ⟨none, e, d⟩ := rfl

set_option maxRecDepth 400000 in
/-- Evidence for C7 being violated by the code: on the raw Markdown body the
repository's own page test serves, GetProjectPage fails with a JSON decode
error instead of treating the body as raw text, requesting the project
pages route rather than the pages endpoints the tests assert; and
GetLatestVersion issues a single JSON-decoded request to the latest route,
failing on the raw version-name body instead of resolving it. -/
theorem pages_latest_json_decoded :
    (GetProjectPage testClient pageTextTransport "testproject" "home").1 =
      Except.error
        "failed to get project page: failed to decode response: invalid character in JSON input" ∧
    (GetProjectPage testClient pageTextTransport "testproject" "home").2 =
      [⟨"GET", "http://srv/projects/testproject/pages/home",
        buildHeaders ""⟩] ∧
    (GetLatestVersion testClient latestTextTransport "testproject"
      "Release" "" "").1 =
      Except.error
        "failed to get latest version: failed to decode response: invalid character in JSON input" ∧
    (GetLatestVersion testClient latestTextTransport "testproject"
      "Release" "" "").2 =
      [⟨"GET", "http://srv/projects/testproject/latest?channel=Release",
        buildHeaders ""⟩] := by
  refine ⟨by decide, by decide, by decide, by decide⟩
